import Mathlib

/-!
Verification of the wire-format layer of the embedded TLS 1.3 handshake client:
the extension TLV codec with per-context allow-list enforcement, the heartbeat
payload codec exemplar, the ServerHello decoder with transcript accumulation,
and the key-exchange bootstrap. Machine bytes are modelled as `Nat` values,
byte spans as `List Nat`, and fallible operations return `Except`.
-/

set_option maxRecDepth 8000

namespace EmbeddedTls

/-- Modelled from the spec: the byte-cursor collaborator's error type (not under
src/). Each read primitive "fails with a delimited insufficient data / malformed
error" (spec section 6); the heartbeat exemplar in src uses the malformed-data
variant `InvalidData`, and the extension-group dispatcher in src distinguishes
`InvalidData` from the other variants. -/
inductive ParseError where
  | InvalidData
  | InsufficientData
deriving DecidableEq, Repr

/-- Modelled from the spec: alert levels (spec sections 4.2, 7); the mandated
abort carries the `Fatal` level. -/
inductive AlertLevel where
  | Warning
  | Fatal
deriving DecidableEq, Repr

/-- Modelled from the spec: alert descriptions; `IllegalParameter` is the one the
RFC-mandated abort must carry (spec sections 4.2, 7). -/
inductive AlertDescription where
  | CloseNotify
  | IllegalParameter
  | HandshakeFailure
deriving DecidableEq, Repr

/-- The TLS error type (its definition is not under src/). Constructors used by
the src files: `InvalidHandshake`, `InvalidSessionIdLength`, `InvalidCipherSuite`,
`DecodeError`, `UnknownExtensionType`, `AbortHandshake(level, description)`.
`CapacityExceeded` is modelled from the spec's capacity policy (section 4.2):
an explicit capacity-exceeded error. -/
inductive TlsError where
  | InvalidHandshake
  | InvalidSessionIdLength
  | InvalidCipherSuite
  | DecodeError
  | UnknownExtensionType
  | AbortHandshake (level : AlertLevel) (description : AlertDescription)
  | CapacityExceeded
deriving DecidableEq, Repr

/-- Error-mapping helper corresponding to Rust's `Result::map_err`. -/
def mapErr {e1 e2 a : Type} (f : e1 → e2) : Except e1 a → Except e2 a
  | .ok x => .ok x
  | .error err => .error (f err)

/-- Modelled from the spec (section 6): the sequential read cursor over an
immutable byte span; the model keeps the remaining span. -/
structure ParseBuffer where
  rem : List Nat
deriving DecidableEq, Repr

/-- Modelled from the spec (section 6): `read_u8` returns the next byte or an
insufficient-data error. -/
def ParseBuffer.read_u8 : ParseBuffer → Except ParseError (Nat × ParseBuffer)
  | ⟨[]⟩ => .error .InsufficientData
  | ⟨b :: rest⟩ => .ok (b, ⟨rest⟩)

/-- Modelled from the spec (section 6): `read_u16` reads two bytes big-endian. -/
def ParseBuffer.read_u16 : ParseBuffer → Except ParseError (Nat × ParseBuffer)
  | ⟨b0 :: b1 :: rest⟩ => .ok (b0 * 256 + b1, ⟨rest⟩)
  | _ => .error .InsufficientData

/-- Modelled from the spec (section 6): `slice n` yields a borrowed n-byte view,
failing (instead of reading past the end) when fewer than n bytes remain. -/
def ParseBuffer.slice (buf : ParseBuffer) (n : Nat) :
    Except ParseError (List Nat × ParseBuffer) :=
  if n ≤ buf.rem.length then .ok (buf.rem.take n, ⟨buf.rem.drop n⟩)
  else .error .InsufficientData

/-- Modelled from the spec (section 6): `fill dst` reads exactly `dst.length`
bytes; modelled as a slice of the destination size. -/
def ParseBuffer.fill (buf : ParseBuffer) (n : Nat) :
    Except ParseError (List Nat × ParseBuffer) :=
  buf.slice n

/-- Modelled from the spec (section 6): the write sink's scoped u16 length
prefix: reserve 2 bytes, run the body, fill in the big-endian length of the
bytes the body wrote. The sink itself is a byte list. -/
def CryptoBuffer.with_u16_length (buf : List Nat)
    (body : List Nat → Except TlsError (List Nat)) : Except TlsError (List Nat) := do
  let inner ← body []
  .ok (buf ++ [inner.length / 256, inner.length % 256] ++ inner)

/-- Modelled from the spec (sections 3, 4.1): the closed enumeration of known
extension identities, matching the modules listed in
src/src/extensions/types/mod.rs together with the heartbeat exemplar; wire codes
are the registered TLS extension code points. -/
inductive ExtensionType where
  | ServerName
  | MaxFragmentLength
  | StatusRequest
  | SupportedGroups
  | SignatureAlgorithms
  | UseSrtp
  | Heartbeat
  | ApplicationLayerProtocolNegotiation
  | Padding
  | PreSharedKey
  | SupportedVersions
  | PskKeyExchangeModes
  | CertificateAuthorities
  | OidFilters
  | PostHandshakeAuth
  | SignatureAlgorithmsCert
  | KeyShare
deriving DecidableEq, Repr

/-- The 2-byte wire code of each extension type. -/
def ExtensionType.code : ExtensionType → Nat
  | .ServerName => 0
  | .MaxFragmentLength => 1
  | .StatusRequest => 5
  | .SupportedGroups => 10
  | .SignatureAlgorithms => 13
  | .UseSrtp => 14
  | .Heartbeat => 15
  | .ApplicationLayerProtocolNegotiation => 16
  | .Padding => 21
  | .PreSharedKey => 41
  | .SupportedVersions => 43
  | .PskKeyExchangeModes => 45
  | .CertificateAuthorities => 47
  | .OidFilters => 48
  | .PostHandshakeAuth => 49
  | .SignatureAlgorithmsCert => 50
  | .KeyShare => 51

/-- Lookup of a wire code in the registry: the partial inverse of
`ExtensionType.code`. -/
def ExtensionType.of (code : Nat) : Option ExtensionType :=
  match code with
  | 0 => some .ServerName
  | 1 => some .MaxFragmentLength
  | 5 => some .StatusRequest
  | 10 => some .SupportedGroups
  | 13 => some .SignatureAlgorithms
  | 14 => some .UseSrtp
  | 15 => some .Heartbeat
  | 16 => some .ApplicationLayerProtocolNegotiation
  | 21 => some .Padding
  | 41 => some .PreSharedKey
  | 43 => some .SupportedVersions
  | 45 => some .PskKeyExchangeModes
  | 47 => some .CertificateAuthorities
  | 48 => some .OidFilters
  | 49 => some .PostHandshakeAuth
  | 50 => some .SignatureAlgorithmsCert
  | 51 => some .KeyShare
  | _ => none

/-- Modelled from the spec (section 4.1): read a 2-byte code and map it to a
known tag; an unrecognized code is the malformed-data parse error, distinct
from a short read. -/
def ExtensionType.parse (buf : ParseBuffer) :
    Except ParseError (ExtensionType × ParseBuffer) := do
  let (c, buf) ← buf.read_u16
  match ExtensionType.of c with
  | some t => pure (t, buf)
  | none => .error .InvalidData

/-- Modelled from the spec (section 4.1): write the 2-byte big-endian code. -/
def ExtensionType.encode (t : ExtensionType) (buf : List Nat) :
    Except TlsError (List Nat) :=
  .ok (buf ++ [t.code / 256, t.code % 256])

/-- Heartbeat mode, from src heartbeat.rs, with Rust discriminants 1 and 2. -/
inductive Heartbeat where
  | PeerAllowedToSend
  | PeerNotAllowedToSend
deriving DecidableEq, Repr

/-- The numeric discriminant of each heartbeat mode (Rust `as u8`). -/
def Heartbeat.code : Heartbeat → Nat
  | .PeerAllowedToSend => 1
  | .PeerNotAllowedToSend => 2

/-- src Heartbeat::parse: read one byte; the first guard arm tests the
`PeerAllowedToSend` discriminant and so does the second guard arm; every
unmatched byte is `ParseError::InvalidData`. -/
def Heartbeat.parse (buf : ParseBuffer) : Except ParseError (Heartbeat × ParseBuffer) := do
  let (v, buf) ← buf.read_u8
  if v = Heartbeat.code .PeerAllowedToSend then pure (.PeerAllowedToSend, buf)
  else if v = Heartbeat.code .PeerAllowedToSend then pure (.PeerAllowedToSend, buf)
  else .error .InvalidData

/-- src Heartbeat::encode: push the numeric discriminant as one byte. -/
def Heartbeat.encode (h : Heartbeat) (buf : List Nat) : Except TlsError (List Nat) :=
  .ok (buf ++ [h.code])

/-- Modelled from the spec (section 3): a KeyShareEntry is the negotiated group
identifier together with the server public key bytes borrowed from the input. -/
structure KeyShareEntry where
  group : Nat
  opaque_key : List Nat
deriving DecidableEq, Repr

/-- Modelled from the spec: the ServerHello KeyShare extension-data newtype whose
field 0 src ServerHello::key_share projects out. -/
structure KeyShareServerHello where
  entry : KeyShareEntry
deriving DecidableEq, Repr

/-- Modelled from the spec (section 8, concrete scenario): the server key-share
payload is the 2-byte group id followed by the remaining bytes of its region as
the public key (a 2-byte region yields the group with empty key bytes). -/
def KeyShareServerHello.parse (buf : ParseBuffer) :
    Except ParseError (KeyShareServerHello × ParseBuffer) := do
  let (g, buf) ← buf.read_u16
  .ok (⟨⟨g, buf.rem⟩⟩, ⟨[]⟩)

/-- Modelled from the spec (section 8): encode of the server key-share payload,
the inverse layout of its parse. -/
def KeyShareServerHello.encode (k : KeyShareServerHello) (buf : List Nat) :
    Except TlsError (List Nat) :=
  .ok (buf ++ [k.entry.group / 256, k.entry.group % 256] ++ k.entry.opaque_key)

/-- Modelled from the spec (sections 1, 3): payload codecs beyond the heartbeat
exemplar are out of scope; the extension envelope holds an opaque payload, kept
here as the raw bytes of the region the dispatcher supplies. -/
structure PreSharedKeyServerHello where
  payload : List Nat
deriving DecidableEq, Repr

/-- Modelled from the spec (sections 1, 3): parse consumes the whole supplied
region as the opaque payload. -/
def PreSharedKeyServerHello.parse (buf : ParseBuffer) :
    Except ParseError (PreSharedKeyServerHello × ParseBuffer) :=
  .ok (⟨buf.rem⟩, ⟨[]⟩)

/-- Modelled from the spec (sections 1, 3): encode writes the opaque payload. -/
def PreSharedKeyServerHello.encode (d : PreSharedKeyServerHello) (buf : List Nat) :
    Except TlsError (List Nat) :=
  .ok (buf ++ d.payload)

/-- Modelled from the spec (sections 1, 3): opaque payload holder, as above. -/
structure SupportedVersionsServerHello where
  payload : List Nat
deriving DecidableEq, Repr

/-- Modelled from the spec (sections 1, 3): parse consumes the whole region. -/
def SupportedVersionsServerHello.parse (buf : ParseBuffer) :
    Except ParseError (SupportedVersionsServerHello × ParseBuffer) :=
  .ok (⟨buf.rem⟩, ⟨[]⟩)

/-- Modelled from the spec (sections 1, 3): encode writes the opaque payload. -/
def SupportedVersionsServerHello.encode (d : SupportedVersionsServerHello)
    (buf : List Nat) : Except TlsError (List Nat) :=
  .ok (buf ++ d.payload)

/-- Modelled from the spec (sections 1, 3): opaque payload holder, as above. -/
structure PostHandshakeAuthServerHello where
  payload : List Nat
deriving DecidableEq, Repr

/-- Modelled from the spec (sections 1, 3): parse consumes the whole region. -/
def PostHandshakeAuthServerHello.parse (buf : ParseBuffer) :
    Except ParseError (PostHandshakeAuthServerHello × ParseBuffer) :=
  .ok (⟨buf.rem⟩, ⟨[]⟩)

/-- Modelled from the spec (sections 1, 3): encode writes the opaque payload. -/
def PostHandshakeAuthServerHello.encode (d : PostHandshakeAuthServerHello)
    (buf : List Nat) : Except TlsError (List Nat) :=
  .ok (buf ++ d.payload)

/-- The ServerHello extension group. The variant listing is modelled from the
spec (section 3 allow-list: KeyShare, PreSharedKey, SupportedVersions,
PostHandshakeAuth); the member functions below follow the bodies generated by
src extension_group_macro.rs for this listing. -/
inductive ServerExtension where
  | KeyShare (d : KeyShareServerHello)
  | PreSharedKey (d : PreSharedKeyServerHello)
  | SupportedVersions (d : SupportedVersionsServerHello)
  | PostHandshakeAuth (d : PostHandshakeAuthServerHello)
deriving DecidableEq, Repr

/-- src extension_group! extension_type: each variant maps to the ExtensionType
constructor of the same name. -/
def ServerExtension.extension_type : ServerExtension → ExtensionType
  | .KeyShare _ => .KeyShare
  | .PreSharedKey _ => .PreSharedKey
  | .SupportedVersions _ => .SupportedVersions
  | .PostHandshakeAuth _ => .PostHandshakeAuth

/-- src extension_group! encode: write the extension type, then the payload
inside a scoped u16 length prefix backpatched to the bytes actually written. -/
def ServerExtension.encode (e : ServerExtension) (buf : List Nat) :
    Except TlsError (List Nat) := do
  let buf ← e.extension_type.encode buf
  CryptoBuffer.with_u16_length buf fun b =>
    match e with
    | .KeyShare d => d.encode b
    | .PreSharedKey d => d.encode b
    | .SupportedVersions d => d.encode b
    | .PostHandshakeAuth d => d.encode b

/-- src extension_group! parse: read the ExtensionType, mapping the invalid-data
parse error to UnknownExtensionType and any other parse error to DecodeError;
dispatch a listed type to its payload parse (whose failure becomes DecodeError);
every other recognized type aborts the handshake with a fatal IllegalParameter
alert. -/
def ServerExtension.parse (buf : ParseBuffer) :
    Except TlsError (ServerExtension × ParseBuffer) := do
  let (t, buf) ← mapErr (fun e =>
    match e with
    | ParseError.InvalidData => TlsError.UnknownExtensionType
    | _ => TlsError.DecodeError) (ExtensionType.parse buf)
  match t with
  | .KeyShare => do
    let (d, buf) ← mapErr (fun _ => TlsError.DecodeError) (KeyShareServerHello.parse buf)
    pure (.KeyShare d, buf)
  | .PreSharedKey => do
    let (d, buf) ← mapErr (fun _ => TlsError.DecodeError) (PreSharedKeyServerHello.parse buf)
    pure (.PreSharedKey d, buf)
  | .SupportedVersions => do
    let (d, buf) ← mapErr (fun _ => TlsError.DecodeError) (SupportedVersionsServerHello.parse buf)
    pure (.SupportedVersions d, buf)
  | .PostHandshakeAuth => do
    let (d, buf) ← mapErr (fun _ => TlsError.DecodeError) (PostHandshakeAuthServerHello.parse buf)
    pure (.PostHandshakeAuth d, buf)
  | _ => .error (.AbortHandshake .Fatal .IllegalParameter)

/-- Modelled from the spec (section 4.2): dispatch of a context-legal extension
type to its payload codec over exactly the supplied length region. -/
def ServerExtension.parse_data (t : ExtensionType) (region : ParseBuffer) :
    Except ParseError ServerExtension :=
  match t with
  | .KeyShare => (KeyShareServerHello.parse region).map fun p => .KeyShare p.1
  | .PreSharedKey => (PreSharedKeyServerHello.parse region).map fun p => .PreSharedKey p.1
  | .SupportedVersions =>
    (SupportedVersionsServerHello.parse region).map fun p => .SupportedVersions p.1
  | .PostHandshakeAuth =>
    (PostHandshakeAuthServerHello.parse region).map fun p => .PostHandshakeAuth p.1
  | _ => .error .InvalidData

/-- Modelled from the spec (sections 4.2, 4.4): the body of the extension-block
decode loop, called by ServerExtension::parse_vector, which is not under src/.
Loop while unconsumed bytes remain: an extension arriving when the list already
holds the configured maximum of 16 (src ServerHello.extensions capacity) is an
explicit capacity-exceeded error; read the ExtensionType (an unrecognized code
propagates UnknownExtensionType); a recognized type outside the context
allow-list aborts the handshake with a fatal IllegalParameter alert; a legal
type's payload is decoded from exactly the bytes of its u16 length region, any
payload failure becoming the generic DecodeError. The fuel argument only feeds
the termination measure and is never exhausted when it starts at one more than
the block length, since every iteration consumes at least the 2-byte type. -/
def ServerExtension.parse_vector_loop (allowed : List ExtensionType) :
    Nat → List Nat → List ServerExtension → Except TlsError (List ServerExtension)
  | _, [], acc => .ok acc
  | 0, _ :: _, _ => .error .DecodeError
  | fuel + 1, b :: rest, acc =>
    if 16 ≤ acc.length then .error .CapacityExceeded
    else do
      let (t, buf) ← mapErr (fun e =>
        match e with
        | ParseError.InvalidData => TlsError.UnknownExtensionType
        | _ => TlsError.DecodeError) (ExtensionType.parse ⟨b :: rest⟩)
      if t ∈ allowed then do
        let (len, buf) ← mapErr (fun _ => TlsError.DecodeError) buf.read_u16
        let (region, buf) ← mapErr (fun _ => TlsError.DecodeError) (buf.slice len)
        let ext ← mapErr (fun _ => TlsError.DecodeError)
          (ServerExtension.parse_data t ⟨region⟩)
        ServerExtension.parse_vector_loop allowed fuel buf.rem (acc ++ [ext])
      else .error (.AbortHandshake .Fatal .IllegalParameter)

/-- Modelled from the spec (sections 4.2, 6): ServerExtension::parse_vector is
not under src/; the extensions block is a u16 length-prefixed sequence of
extension records, decoded by the loop above into an ordered bounded list. -/
def ServerExtension.parse_vector (buf : ParseBuffer) (allowed : List ExtensionType) :
    Except TlsError (List ServerExtension × ParseBuffer) := do
  let (len, buf) ← mapErr (fun _ => TlsError.DecodeError) buf.read_u16
  let (block, buf) ← mapErr (fun _ => TlsError.DecodeError) (buf.slice len)
  let exts ← ServerExtension.parse_vector_loop allowed (block.length + 1) block []
  pure (exts, buf)

/-- Modelled from the spec (section 4.4, step 5): the known cipher-suite table;
CipherSuite::of is not under src/. Codes are the TLS 1.3 registered suites. -/
inductive CipherSuite where
  | TlsAes128GcmSha256
  | TlsAes256GcmSha384
  | TlsChacha20Poly1305Sha256
deriving DecidableEq, Repr

/-- Modelled from the spec (section 4.4, step 5): resolve a 2-byte suite code
against the known-suite table. -/
def CipherSuite.of (code : Nat) : Option CipherSuite :=
  match code with
  | 0x1301 => some .TlsAes128GcmSha256
  | 0x1302 => some .TlsAes256GcmSha384
  | 0x1303 => some .TlsChacha20Poly1305Sha256
  | _ => none

/-- The 32-byte server random, kept as a byte list. -/
abbrev Random := List Nat

/-- src ServerHello: random, legacy session-id echo borrowed from the input,
negotiated cipher suite, and the bounded ordered extension list (capacity 16
enforced during decode). -/
structure ServerHello where
  random : Random
  legacy_session_id_echo : List Nat
  cipher_suite : CipherSuite
  extensions : List ServerExtension
deriving DecidableEq, Repr

/-- src ServerHello::ALLOWED_EXTENSIONS: the RFC 8446 section 4.2 rows marked
SH. -/
def ServerHello.ALLOWED_EXTENSIONS : List ExtensionType :=
  [.KeyShare, .PreSharedKey, .SupportedVersions, .PostHandshakeAuth]

/-- Modelled from the spec (section 4.4, step 3): the From(ParseError)
conversion applied by the bare question-mark operator in src
ServerHello::parse; a cursor failure there is the generic decode error. -/
def TlsError.from_parse : ParseError → TlsError :=
  fun _ => TlsError.DecodeError

/-- src ServerHello::parse: 2-byte version (failure InvalidHandshake), 32-byte
random, 1-byte session-id length and the session-id slice (failures
InvalidSessionIdLength), 2-byte cipher-suite code resolved against the suite
table (failures InvalidCipherSuite), 1 compression byte read and discarded,
then the extension group under the ServerHello allow-list. -/
def ServerHello.parse (buf : ParseBuffer) :
    Except TlsError (ServerHello × ParseBuffer) := do
  let (_version, buf) ← mapErr (fun _ => TlsError.InvalidHandshake) buf.read_u16
  let (random, buf) ← mapErr TlsError.from_parse (buf.fill 32)
  let (session_id_length, buf) ←
    mapErr (fun _ => TlsError.InvalidSessionIdLength) buf.read_u8
  let (session_id, buf) ←
    mapErr (fun _ => TlsError.InvalidSessionIdLength) (buf.slice session_id_length)
  let (code, buf) ← mapErr (fun _ => TlsError.InvalidCipherSuite) buf.read_u16
  let cipher_suite ← match CipherSuite.of code with
    | some c => Except.ok c
    | none => Except.error TlsError.InvalidCipherSuite
  let (_compression, buf) ← mapErr TlsError.from_parse buf.read_u8
  let (extensions, buf) ← ServerExtension.parse_vector buf ServerHello.ALLOWED_EXTENSIONS
  pure ({ random := random, legacy_session_id_echo := session_id,
          cipher_suite := cipher_suite, extensions := extensions }, buf)

/-- src ServerHello::read: update the transcript digest with the entire raw
input span, then parse it. The digest collaborator is the list of byte spans
fed to its streaming update so far. -/
def ServerHello.read (buf : List Nat) (digest : List (List Nat)) :
    List (List Nat) × Except TlsError (ServerHello × ParseBuffer) :=
  (digest ++ [buf], ServerHello.parse ⟨buf⟩)

/-- src ServerHello::key_share: find_map over the decoded extensions, returning
field 0 of the first KeyShare variant. -/
def ServerHello.key_share (sh : ServerHello) : Option KeyShareEntry :=
  sh.extensions.findSome? fun e =>
    match e with
    | .KeyShare d => some d.entry
    | _ => none

/-- Modelled from the spec (section 6): an accepted public key is its SEC1 byte
encoding. -/
structure PublicKey where
  bytes : List Nat
deriving DecidableEq, Repr

/-- Modelled from the spec (sections 3, 4.5): the single-use ephemeral secret,
an externally-typed value. -/
structure EphemeralSecret where
  scalar : Nat
deriving DecidableEq, Repr

/-- Modelled from the spec (section 4.5): the Diffie-Hellman output is
determined by the ephemeral secret and the peer public key. -/
structure SharedSecret where
  secret : EphemeralSecret
  point : PublicKey
deriving DecidableEq, Repr

/-- Modelled from the spec (sections 4.5, 6): SEC1 point decoding is an external
collaborator; its accept/reject behavior is the parameter `valid`, so every
theorem below holds for every such behavior. -/
def PublicKey.from_sec1_bytes (valid : List Nat → Bool) (bytes : List Nat) :
    Option PublicKey :=
  if valid bytes then some ⟨bytes⟩ else none

/-- Modelled from the spec (section 4.5): the Diffie-Hellman operation of the
external cryptography collaborator. -/
def EphemeralSecret.diffie_hellman (s : EphemeralSecret) (p : PublicKey) :
    SharedSecret :=
  ⟨s, p⟩

/-- Modelled from the spec (sections 3, 6): the external cryptographic engine
handle, opaquely determined by its constructor arguments. -/
structure CryptoEngine where
  group : Nat
  shared : SharedSecret
deriving DecidableEq, Repr

/-- Modelled from the spec (section 6): the engine constructor
new(group, shared_secret). -/
def CryptoEngine.new (group : Nat) (shared : SharedSecret) : CryptoEngine :=
  ⟨group, shared⟩

/-- src ServerHello::calculate_shared_secret: extract the key share, decode its
public-key bytes as a point (soft failure), then Diffie-Hellman. -/
def ServerHello.calculate_shared_secret (valid : List Nat → Bool)
    (sh : ServerHello) (secret : EphemeralSecret) : Option SharedSecret := do
  let server_key_share ← sh.key_share
  let server_public_key ← PublicKey.from_sec1_bytes valid server_key_share.opaque_key
  some (secret.diffie_hellman server_public_key)

/-- src ServerHello::initialize_crypto_engine: extract the key share, take its
group, decode the public-key bytes, Diffie-Hellman with the consumed ephemeral
secret, and construct the engine from the group and the shared secret. -/
def ServerHello.initialize_crypto_engine (valid : List Nat → Bool)
    (sh : ServerHello) (secret : EphemeralSecret) : Option CryptoEngine := do
  let server_key_share ← sh.key_share
  let group := server_key_share.group
  let server_public_key ← PublicKey.from_sec1_bytes valid server_key_share.opaque_key
  let shared := secret.diffie_hellman server_public_key
  some (CryptoEngine.new group shared)

/-- C1: Heartbeat payload decode reads one byte; byte 1 yields PeerAllowedToSend
and bytes outside {1, 2} fail with the invalid-data parse error, as the claim
states; but on input byte 2 the decoder returns the invalid-data parse error
instead of the claimed PeerNotAllowedToSend, because the second guard arm of
Heartbeat::parse repeats the PeerAllowedToSend test of the first. -/
theorem heartbeat_parse_byte_map :
    Heartbeat.parse ⟨[1]⟩ = .ok (.PeerAllowedToSend, ⟨[]⟩) ∧
    Heartbeat.parse ⟨[2]⟩ = .error .InvalidData ∧
    Heartbeat.parse ⟨[0]⟩ = .error .InvalidData ∧
    Heartbeat.parse ⟨[3]⟩ = .error .InvalidData ∧
    Heartbeat.parse ⟨[]⟩ = .error .InsufficientData :=
  ⟨rfl, rfl, rfl, rfl, rfl⟩

/-- C5: decoding the bytes produced by encoding a heartbeat value does not
return the value for PeerNotAllowedToSend: encode writes the single byte 2, and
the duplicated guard arm of Heartbeat::parse sends byte 2 to the invalid-data
error, so decode(encode(v)) fails instead of yielding v. -/
theorem heartbeat_roundtrip_fails :
    Heartbeat.encode .PeerNotAllowedToSend [] = .ok [2] ∧
    Heartbeat.parse ⟨[2]⟩ = .error .InvalidData ∧
    ∀ rest, Heartbeat.parse ⟨2 :: rest⟩ ≠ .ok (.PeerNotAllowedToSend, ⟨rest⟩) :=
  ⟨rfl, rfl, fun _ h => by simp [Heartbeat.parse, ParseBuffer.read_u8,
    Heartbeat.code, bind, Except.bind] at h⟩

/-- C3: ServerHello::read updates the transcript digest with exactly the entire
input span, exactly once, and the parse outcome is computed from that same span
independently of the digest; in particular the digest update happens whether or
not the parse succeeds. -/
theorem server_hello_read_transcript (buf : List Nat) (digest : List (List Nat)) :
    (ServerHello.read buf digest).1 = digest ++ [buf] ∧
    (ServerHello.read buf digest).2 = ServerHello.parse ⟨buf⟩ :=
  ⟨rfl, rfl⟩

/-- C9: initialize_crypto_engine agrees with calculate_shared_secret: it is the
key share's group paired with exactly the shared secret calculate_shared_secret
computes, and it returns some engine exactly when calculate_shared_secret
returns some secret — for every behavior of the external point decoder. -/
theorem initialize_engine_refines_shared_secret (valid : List Nat → Bool)
    (sh : ServerHello) (secret : EphemeralSecret) :
    sh.initialize_crypto_engine valid secret =
      sh.key_share.bind (fun entry =>
        (sh.calculate_shared_secret valid secret).map fun s =>
          CryptoEngine.new entry.group s) ∧
    ((sh.initialize_crypto_engine valid secret).isSome ↔
      (sh.calculate_shared_secret valid secret).isSome) := by
  unfold ServerHello.initialize_crypto_engine ServerHello.calculate_shared_secret
  cases hks : sh.key_share with
  | none => simp
  | some entry =>
    cases hp : PublicKey.from_sec1_bytes valid entry.opaque_key with
    | none => simp [hp]
    | some p => simp [hp]

/-- C2: an extension whose leading 2-byte code names a recognized ExtensionType
outside the ServerHello allow-list makes the group decode fail with the
handshake abort carrying a Fatal level and the IllegalParameter description —
exactly that error, so never a generic decode error — whatever bytes follow
the type code. -/
theorem server_extension_foreign_aborts (t : ExtensionType)
    (h : t ∉ ServerHello.ALLOWED_EXTENSIONS) (rest : List Nat) :
    ServerExtension.parse ⟨t.code / 256 :: t.code % 256 :: rest⟩ =
      .error (.AbortHandshake .Fatal .IllegalParameter) := by
  cases t <;> first | exact absurd (by decide) h | rfl

/-- C2 witness: ServerName is recognized but foreign to ServerHello, and its
extension decode aborts with the fatal IllegalParameter alert. -/
theorem server_extension_foreign_aborts_witness :
    ServerExtension.parse ⟨[0, 0, 0, 0]⟩ =
      .error (.AbortHandshake .Fatal .IllegalParameter) :=
  server_extension_foreign_aborts .ServerName (by decide) [0, 0]

/-- C4: an extension whose leading 2-byte code is recognized by no
ExtensionType makes the group decode fail with UnknownExtensionType, a
constructor distinct from the generic decode error and from every handshake
abort. -/
theorem server_extension_unknown_type (c0 c1 : Nat) (rest : List Nat)
    (h : ExtensionType.of (c0 * 256 + c1) = none) :
    ServerExtension.parse ⟨c0 :: c1 :: rest⟩ = .error .UnknownExtensionType ∧
    TlsError.UnknownExtensionType ≠ TlsError.DecodeError ∧
    ∀ l d, TlsError.UnknownExtensionType ≠ TlsError.AbortHandshake l d := by
  refine ⟨?_, by decide, fun l d hc => by cases hc⟩
  simp [ServerExtension.parse, ExtensionType.parse, ParseBuffer.read_u16, h,
    mapErr, bind, Except.bind]

/-- C4 witness: the unregistered code 0x1234 decodes to UnknownExtensionType. -/
theorem server_extension_unknown_type_witness :
    ServerExtension.parse ⟨[18, 52]⟩ = .error .UnknownExtensionType :=
  (server_extension_unknown_type 18 52 [] (by decide)).1

/-- C6: after the version and the 32-byte random, a ServerHello whose remaining
bytes are either empty (the session-id length byte cannot be read) or a length
byte claiming more bytes than remain fails with InvalidSessionIdLength; the
model's cursor never reads past the end of the span, it fails instead. -/
theorem server_hello_session_id_truncation (v0 v1 : Nat) (r rest : List Nat)
    (hr : r.length = 32)
    (h : rest = [] ∨ ∃ n tail, rest = n :: tail ∧ tail.length < n) :
    ServerHello.parse ⟨v0 :: v1 :: (r ++ rest)⟩ = .error .InvalidSessionIdLength := by
  have h32 : (32 : Nat) ≤ (r ++ rest).length := by
    simp [List.length_append, hr]
  have htake : (r ++ rest).take 32 = r := by
    rw [← hr]; exact List.take_left r rest
  have hdrop : (r ++ rest).drop 32 = rest := by
    rw [← hr]; exact List.drop_left r rest
  simp only [ServerHello.parse, ParseBuffer.read_u16, ParseBuffer.fill,
    ParseBuffer.slice, mapErr, bind, Except.bind, if_pos h32, htake, hdrop]
  rcases h with hnil | ⟨n, tail, hrest, hlt⟩
  · subst hnil
    rfl
  · subst hrest
    simp only [ParseBuffer.read_u8]
    rw [if_neg (by simp; omega)]

/-- C6 witness: with a zero random, a missing session-id length byte and a
length byte of 5 with no bytes behind it both fail with
InvalidSessionIdLength. -/
theorem server_hello_session_id_truncation_witness :
    ServerHello.parse ⟨0 :: 0 :: (List.replicate 32 0 ++ [5])⟩ =
      .error .InvalidSessionIdLength ∧
    ServerHello.parse ⟨0 :: 0 :: (List.replicate 32 0 ++ [])⟩ =
      .error .InvalidSessionIdLength :=
  ⟨server_hello_session_id_truncation 0 0 _ [5] (by decide)
      (Or.inr ⟨5, [], rfl, by decide⟩),
    server_hello_session_id_truncation 0 0 _ [] (by decide) (Or.inl rfl)⟩

/-- List.findSome? returns none on a list all of whose elements map to none. -/
lemma findSome?_none_of_forall {α β : Type} (f : α → Option β) (l : List α)
    (h : ∀ x ∈ l, f x = none) : l.findSome? f = none := by
  induction l with
  | nil => rfl
  | cons a t ih =>
    simp only [List.findSome?, h a (List.mem_cons_self a t)]
    exact ih fun x hx => h x (List.mem_cons_of_mem a hx)

/-- List.findSome? skips a prefix all of whose elements map to none. -/
lemma findSome?_append_of_forall_none {α β : Type} (f : α → Option β)
    (pre l : List α) (hpre : ∀ x ∈ pre, f x = none) :
    (pre ++ l).findSome? f = l.findSome? f := by
  induction pre with
  | nil => rfl
  | cons a t ih =>
    simp only [List.cons_append, List.findSome?, hpre a (List.mem_cons_self a t)]
    exact ih fun x hx => hpre x (List.mem_cons_of_mem a hx)

/-- C8: key_share returns the entry of the first KeyShare variant in received
order (whatever follows it), and none when no KeyShare extension is present;
in the none case calculate_shared_secret and initialize_crypto_engine also
return none for every point-decoder behavior and every ephemeral secret, with
no error value involved. -/
theorem server_hello_key_share_spec (sh : ServerHello) :
    (∀ pre entry post,
      sh.extensions = pre ++ ServerExtension.KeyShare ⟨entry⟩ :: post →
      (∀ x ∈ pre, ∀ d, x ≠ ServerExtension.KeyShare d) →
      sh.key_share = some entry) ∧
    ((∀ x ∈ sh.extensions, ∀ d, x ≠ ServerExtension.KeyShare d) →
      sh.key_share = none ∧
      ∀ valid secret, sh.calculate_shared_secret valid secret = none ∧
        sh.initialize_crypto_engine valid secret = none) := by
  constructor
  · intro pre entry post hext hpre
    unfold ServerHello.key_share
    rw [hext]
    rw [findSome?_append_of_forall_none _ pre _ (fun x hx => by
      cases x with
      | KeyShare d => exact absurd rfl (hpre _ hx d)
      | PreSharedKey d => rfl
      | SupportedVersions d => rfl
      | PostHandshakeAuth d => rfl)]
    simp [List.findSome?]
  · intro hall
    have hnone : sh.key_share = none := by
      unfold ServerHello.key_share
      exact findSome?_none_of_forall _ _ (fun x hx => by
        cases x with
        | KeyShare d => exact absurd rfl (hall _ hx d)
        | PreSharedKey d => rfl
        | SupportedVersions d => rfl
        | PostHandshakeAuth d => rfl)
    refine ⟨hnone, fun valid secret => ?_⟩
    constructor
    · simp [ServerHello.calculate_shared_secret, hnone]
    · simp [ServerHello.initialize_crypto_engine, hnone]

/-- C8 witness: among [PostHandshakeAuth, KeyShare(29), KeyShare(30)] the first
KeyShare entry is returned; with only a PostHandshakeAuth extension key_share,
calculate_shared_secret and initialize_crypto_engine all return none. -/
theorem server_hello_key_share_spec_witness :
    (ServerHello.mk [] [] .TlsAes128GcmSha256
      [.PostHandshakeAuth ⟨[]⟩, .KeyShare ⟨⟨29, []⟩⟩,
        .KeyShare ⟨⟨30, []⟩⟩]).key_share = some ⟨29, []⟩ ∧
    (ServerHello.mk [] [] .TlsAes128GcmSha256
      [.PostHandshakeAuth ⟨[]⟩]).key_share = none ∧
    (ServerHello.mk [] [] .TlsAes128GcmSha256
      [.PostHandshakeAuth ⟨[]⟩]).calculate_shared_secret (fun _ => true) ⟨7⟩ = none ∧
    (ServerHello.mk [] [] .TlsAes128GcmSha256
      [.PostHandshakeAuth ⟨[]⟩]).initialize_crypto_engine (fun _ => true) ⟨7⟩ = none := by
  have hno : ∀ x ∈ [ServerExtension.PostHandshakeAuth ⟨[]⟩], ∀ d,
      x ≠ ServerExtension.KeyShare d := by
    intro x hx d
    simp only [List.mem_singleton] at hx
    subst hx
    exact fun hc => ServerExtension.noConfusion hc
  have h2 := (server_hello_key_share_spec
    (ServerHello.mk [] [] .TlsAes128GcmSha256 [.PostHandshakeAuth ⟨[]⟩])).2 hno
  exact ⟨(server_hello_key_share_spec _).1 [.PostHandshakeAuth ⟨[]⟩] ⟨29, []⟩
      [.KeyShare ⟨⟨30, []⟩⟩] rfl hno,
    h2.1, (h2.2 (fun _ => true) ⟨7⟩).1, (h2.2 (fun _ => true) ⟨7⟩).2⟩

/-- C10: tag consistency of the ServerHello extension group: extension_type
maps each variant to the ExtensionType constructor of the same name; every
successful parse yields a variant whose extension_type equals the
ExtensionType decoded from the input's leading 2-byte code; and encode writes
exactly the type tag a subsequent ExtensionType parse dispatches on. -/
theorem server_extension_tag_consistency :
    (∀ d, (ServerExtension.KeyShare d).extension_type = ExtensionType.KeyShare) ∧
    (∀ d, (ServerExtension.PreSharedKey d).extension_type = ExtensionType.PreSharedKey) ∧
    (∀ d, (ServerExtension.SupportedVersions d).extension_type =
      ExtensionType.SupportedVersions) ∧
    (∀ d, (ServerExtension.PostHandshakeAuth d).extension_type =
      ExtensionType.PostHandshakeAuth) ∧
    (∀ buf ext rest, ServerExtension.parse buf = .ok (ext, rest) →
      ∃ buf2, ExtensionType.parse buf = .ok (ext.extension_type, buf2)) ∧
    (∀ ext out, ServerExtension.encode ext [] = .ok out →
      ∃ buf2, ExtensionType.parse ⟨out⟩ = .ok (ext.extension_type, buf2)) := by
  refine ⟨fun d => rfl, fun d => rfl, fun d => rfl, fun d => rfl, ?_, ?_⟩
  · intro buf ext rest h
    unfold ServerExtension.parse at h
    cases hT : ExtensionType.parse buf with
    | error e =>
      rw [hT] at h
      cases e <;> exact Except.noConfusion h
    | ok p =>
      obtain ⟨t, buf1⟩ := p
      rw [hT] at h
      simp only [mapErr, bind, Except.bind] at h
      cases t
      case KeyShare =>
        cases hp : KeyShareServerHello.parse buf1 with
        | error e => rw [hp] at h; exact Except.noConfusion h
        | ok q =>
          obtain ⟨d, b⟩ := q
          rw [hp] at h
          simp only [pure, Except.pure] at h
          injection h with h1
          injection h1 with h2 h3
          subst h2
          exact ⟨buf1, rfl⟩
      case PreSharedKey =>
        cases hp : PreSharedKeyServerHello.parse buf1 with
        | error e => rw [hp] at h; exact Except.noConfusion h
        | ok q =>
          obtain ⟨d, b⟩ := q
          rw [hp] at h
          simp only [pure, Except.pure] at h
          injection h with h1
          injection h1 with h2 h3
          subst h2
          exact ⟨buf1, rfl⟩
      case SupportedVersions =>
        cases hp : SupportedVersionsServerHello.parse buf1 with
        | error e => rw [hp] at h; exact Except.noConfusion h
        | ok q =>
          obtain ⟨d, b⟩ := q
          rw [hp] at h
          simp only [pure, Except.pure] at h
          injection h with h1
          injection h1 with h2 h3
          subst h2
          exact ⟨buf1, rfl⟩
      case PostHandshakeAuth =>
        cases hp : PostHandshakeAuthServerHello.parse buf1 with
        | error e => rw [hp] at h; exact Except.noConfusion h
        | ok q =>
          obtain ⟨d, b⟩ := q
          rw [hp] at h
          simp only [pure, Except.pure] at h
          injection h with h1
          injection h1 with h2 h3
          subst h2
          exact ⟨buf1, rfl⟩
      all_goals exact Except.noConfusion h
  · intro ext out h
    cases ext <;>
      · simp only [ServerExtension.encode, ServerExtension.extension_type,
          ExtensionType.encode, ExtensionType.code, CryptoBuffer.with_u16_length,
          KeyShareServerHello.encode, PreSharedKeyServerHello.encode,
          SupportedVersionsServerHello.encode, PostHandshakeAuthServerHello.encode,
          bind, Except.bind, pure, Except.pure] at h
        injection h with h1
        subst h1
        exact ⟨_, rfl⟩

/-- C10 witness: a parsed PostHandshakeAuth extension carries the tag decoded
from its leading code, and an encoded KeyShare extension starts with the tag
the type decoder reads back. -/
theorem server_extension_tag_consistency_witness :
    (∃ buf2, ExtensionType.parse ⟨[0, 49]⟩ =
      .ok ((ServerExtension.PostHandshakeAuth ⟨[]⟩).extension_type, buf2)) ∧
    (∃ buf2, ExtensionType.parse ⟨[0, 51, 0, 2, 0, 29]⟩ =
      .ok ((ServerExtension.KeyShare ⟨⟨29, []⟩⟩).extension_type, buf2)) :=
  ⟨server_extension_tag_consistency.2.2.2.2.1 ⟨[0, 49]⟩
      (.PostHandshakeAuth ⟨[]⟩) ⟨[]⟩ rfl,
    server_extension_tag_consistency.2.2.2.2.2 (.KeyShare ⟨⟨29, []⟩⟩)
      [0, 51, 0, 2, 0, 29] rfl⟩

/-- The byte layout of n consecutive PostHandshakeAuth extension records:
each is type code 0x0031 followed by a zero u16 payload length. -/
def extensionBlockOf : Nat → List Nat
  | 0 => []
  | n + 1 => 0 :: 49 :: 0 :: 0 :: extensionBlockOf n

/-- Each record of the block is 4 bytes long. -/
lemma extensionBlockOf_length (n : Nat) : (extensionBlockOf n).length = 4 * n := by
  induction n with
  | zero => rfl
  | succ k ih => simp [extensionBlockOf, ih]; omega

/-- The type decoder reads the PostHandshakeAuth code off the block head. -/
lemma ext_parse_pha (l : List Nat) :
    ExtensionType.parse ⟨0 :: 49 :: l⟩ = .ok (.PostHandshakeAuth, ⟨l⟩) := rfl

/-- A zero-length slice succeeds with an empty view. -/
lemma slice_zero (l : List Nat) : ParseBuffer.slice ⟨l⟩ 0 = .ok ([], ⟨l⟩) := by
  simp [ParseBuffer.slice]

/-- One iteration of the decode loop on a PostHandshakeAuth record either
reports the capacity error (list already full) or appends the decoded entry. -/
lemma parse_vector_loop_step (f : Nat) (k : Nat) (acc : List ServerExtension) :
    ServerExtension.parse_vector_loop ServerHello.ALLOWED_EXTENSIONS (f + 1)
      (0 :: 49 :: 0 :: 0 :: extensionBlockOf k) acc =
    if 16 ≤ acc.length then .error .CapacityExceeded
    else ServerExtension.parse_vector_loop ServerHello.ALLOWED_EXTENSIONS f
      (extensionBlockOf k) (acc ++ [.PostHandshakeAuth ⟨[]⟩]) := by
  simp only [ServerExtension.parse_vector_loop]
  by_cases hacc : 16 ≤ acc.length
  · rw [if_pos hacc, if_pos hacc]
  · rw [if_neg hacc, if_neg hacc]
    simp [ext_parse_pha, slice_zero, mapErr, ParseBuffer.read_u16,
      ServerExtension.parse_data, PostHandshakeAuthServerHello.parse,
      ServerHello.ALLOWED_EXTENSIONS, bind, Except.bind, pure, Except.pure,
      Except.map]

/-- The decode loop accepts any block whose record count fits the remaining
capacity, returning the records in order. -/
lemma parse_vector_loop_ok (n : Nat) : ∀ (fuel : Nat) (acc : List ServerExtension),
    n ≤ fuel → acc.length + n ≤ 16 →
    ServerExtension.parse_vector_loop ServerHello.ALLOWED_EXTENSIONS fuel
      (extensionBlockOf n) acc =
      .ok (acc ++ List.replicate n (.PostHandshakeAuth ⟨[]⟩)) := by
  induction n with
  | zero =>
    intro fuel acc _ _
    simp [extensionBlockOf, ServerExtension.parse_vector_loop]
  | succ k ih =>
    intro fuel acc hf hc
    obtain ⟨f, rfl⟩ : ∃ f, fuel = f + 1 := ⟨fuel - 1, by omega⟩
    rw [extensionBlockOf, parse_vector_loop_step, if_neg (by omega)]
    have hrec := ih f (acc ++ [ServerExtension.PostHandshakeAuth ⟨[]⟩])
      (by omega) (by simp; omega)
    rw [hrec]
    simp [List.replicate_succ]

/-- The decode loop fails with the explicit capacity error as soon as more
records arrive than capacity remains for. -/
lemma parse_vector_loop_capacity (n : Nat) :
    ∀ (fuel : Nat) (acc : List ServerExtension),
    n ≤ fuel → acc.length ≤ 16 → 16 < acc.length + n →
    ServerExtension.parse_vector_loop ServerHello.ALLOWED_EXTENSIONS fuel
      (extensionBlockOf n) acc = .error .CapacityExceeded := by
  induction n with
  | zero => intro fuel acc _ h1 h2; omega
  | succ k ih =>
    intro fuel acc hf h1 h2
    obtain ⟨f, rfl⟩ : ∃ f, fuel = f + 1 := ⟨fuel - 1, by omega⟩
    rw [extensionBlockOf, parse_vector_loop_step]
    by_cases hacc : 16 ≤ acc.length
    · rw [if_pos hacc]
    · rw [if_neg hacc]
      exact ih f _ (by omega) (by simp; omega) (by simp; omega)

/-- C7: a ServerHello extensions block with any number of entries up to the
configured maximum of 16 decodes successfully to exactly those entries in
order (nothing dropped or overwritten), and a block with more than 16 entries
fails deterministically with the explicit capacity-exceeded error. -/
theorem parse_vector_capacity (n : Nat) :
    (n ≤ 16 →
      ServerExtension.parse_vector ⟨4 * n / 256 :: 4 * n % 256 :: extensionBlockOf n⟩
        ServerHello.ALLOWED_EXTENSIONS =
        .ok (List.replicate n (.PostHandshakeAuth ⟨[]⟩), ⟨[]⟩)) ∧
    (16 < n → 4 * n < 65536 →
      ServerExtension.parse_vector ⟨4 * n / 256 :: 4 * n % 256 :: extensionBlockOf n⟩
        ServerHello.ALLOWED_EXTENSIONS = .error .CapacityExceeded) := by
  have hlen : (extensionBlockOf n).length = 4 * n := extensionBlockOf_length n
  have hread : ParseBuffer.read_u16 ⟨4 * n / 256 :: 4 * n % 256 :: extensionBlockOf n⟩ =
      .ok (4 * n, ⟨extensionBlockOf n⟩) := by
    simp only [ParseBuffer.read_u16, Except.ok.injEq, Prod.mk.injEq, and_true]
    omega
  have hslice : ParseBuffer.slice ⟨extensionBlockOf n⟩ (4 * n) =
      .ok (extensionBlockOf n, ⟨[]⟩) := by
    simp [ParseBuffer.slice, ← hlen]
  constructor
  · intro hn
    simp only [ServerExtension.parse_vector, hread, hslice, mapErr, bind, Except.bind, hlen]
    rw [parse_vector_loop_ok n (4 * n + 1) [] (by omega) (by simp; omega)]
    rfl
  · intro hn _
    simp only [ServerExtension.parse_vector, hread, hslice, mapErr, bind, Except.bind, hlen]
    rw [parse_vector_loop_capacity n (4 * n + 1) [] (by omega) (by simp) (by simp; omega)]

/-- C7 witness: a block of exactly 16 extensions decodes to 16 entries, and a
block of 17 fails with the capacity error. -/
theorem parse_vector_capacity_witness :
    ServerExtension.parse_vector ⟨0 :: 64 :: extensionBlockOf 16⟩
      ServerHello.ALLOWED_EXTENSIONS =
      .ok (List.replicate 16 (.PostHandshakeAuth ⟨[]⟩), ⟨[]⟩) ∧
    ServerExtension.parse_vector ⟨0 :: 68 :: extensionBlockOf 17⟩
      ServerHello.ALLOWED_EXTENSIONS = .error .CapacityExceeded :=
  ⟨(parse_vector_capacity 16).1 (by decide),
    (parse_vector_capacity 17).2 (by decide) (by decide)⟩
end EmbeddedTls
